import Mathlib

/-!
Verification of the foldeb block segmenter and error classifier
(src/src/extension.ts), shallowly embedded in Lean 4.

Lines are modelled as `List String`; JavaScript array indexing that can
yield `undefined` (and then throw on a method call) is modelled with
`Option`; a thrown exception is `none`.  Regular-expression `test` calls
are modelled by an executable backtracking matcher over a small regex
AST, with each source pattern transcribed term by term.
-/

/-- JS `\s` whitespace (ASCII part; the inputs considered are ASCII).
Used by `getIndentLevel` (regex `^(\s*)`) and by `String.prototype.trim`. -/
def jsSpace (c : Char) : Bool :=
  c = ' ' || c = '\t' || c = '\n' || c = '\r' || c = '\x0b' || c = '\x0c'

/-- JS `\w` character class: `[A-Za-z0-9_]`. -/
def isWordChar (c : Char) : Bool :=
  ('a' ≤ c && c ≤ 'z') || ('A' ≤ c && c ≤ 'Z') || ('0' ≤ c && c ≤ '9') || c = '_'

/-- JS `\d` character class: `[0-9]`. -/
def isDigitChar (c : Char) : Bool :=
  '0' ≤ c && c ≤ '9'

/-- JS `.` (no `s` flag): any character but a line terminator.
(U+2028/U+2029 omitted; the inputs considered are ASCII.) -/
def isDotChar (c : Char) : Bool :=
  !(c = '\n' || c = '\r')

/-- JS `[\w.]` character class. -/
def isWordDot (c : Char) : Bool :=
  isWordChar c || c = '.'

/-- Lower-case an ASCII letter; models the effect of the regex `i` flag
by case-folding the subject string (the patterns are written lower-case). -/
def lowerChar (c : Char) : Char :=
  if 'A' ≤ c && c ≤ 'Z' then Char.ofNat (c.toNat + 32) else c

/-- Leading characters of `cs` that satisfy `p`, counted. -/
def countLeading (p : Char → Bool) : List Char → Nat
  | [] => 0
  | c :: cs => if p c then countLeading p cs + 1 else 0

/-- `String.prototype.trim` on the character list. -/
def trimChars (cs : List Char) : List Char :=
  ((cs.dropWhile jsSpace).reverse.dropWhile jsSpace).reverse

/-- `String.prototype.trim`. -/
def trimS (s : String) : String :=
  String.mk (trimChars s.data)

/-- Drop a literal character sequence from the front of `cs`; `none` if it
is not a prefix. -/
def dropLit : List Char → List Char → Option (List Char)
  | [], cs => some cs
  | _ :: _, [] => none
  | p :: ps, c :: cs => if c = p then dropLit ps cs else none

/-- `String.prototype.startsWith`. -/
def startsWithS (s p : String) : Bool :=
  (dropLit p.data s.data).isSome

/-- `getIndentLevel` (extension.ts:131-134): length of the `^(\s*)` match,
i.e. the number of leading whitespace characters. -/
def getIndentLevel (line : String) : Nat :=
  countLeading jsSpace line.data

/-- Regex AST covering the constructs used by the source's patterns.
Stars and pluses only ever range over single-character classes in the
source, which keeps the matcher total. -/
inductive Reg : Type where
  | eps : Reg
  | lit : List Char → Reg
  | cls : (Char → Bool) → Reg
  | seq : Reg → Reg → Reg
  | alt : Reg → Reg → Reg
  | star : (Char → Bool) → Reg
  | plus : (Char → Bool) → Reg
  | opt : Reg → Reg

/-- Backtracking run of `p*` with continuation `k`: tries every split. -/
def starRun (p : Char → Bool) (k : List Char → Bool) : List Char → Bool
  | [] => k []
  | c :: cs => k (c :: cs) || (p c && starRun p k cs)

/-- Backtracking matcher in continuation style: `mrun r k cs` is true iff
some prefix of `cs` matches `r` and `k` accepts the remaining suffix. -/
def mrun : Reg → (List Char → Bool) → List Char → Bool
  | .eps, k, cs => k cs
  | .lit l, k, cs =>
      match dropLit l cs with
      | some rest => k rest
      | none => false
  | .cls _, _, [] => false
  | .cls p, k, c :: cs => p c && k cs
  | .seq a b, k, cs => mrun a (fun rest => mrun b k rest) cs
  | .alt a b, k, cs => mrun a k cs || mrun b k cs
  | .star p, k, cs => starRun p k cs
  | .plus _, _, [] => false
  | .plus p, k, c :: cs => p c && starRun p k cs
  | .opt r, k, cs => mrun r k cs || k cs

/-- A match of `r` starting at the head of `cs` (rest unconstrained). -/
def matchesAt (r : Reg) (cs : List Char) : Bool :=
  mrun r (fun _ => true) cs

/-- Unanchored search, as `RegExp.prototype.test`: try every start. -/
def searchAll (r : Reg) : List Char → Bool
  | [] => matchesAt r []
  | c :: cs => matchesAt r (c :: cs) || searchAll r cs

/-- `pattern.test(s)` for a case-sensitive pattern. -/
def rtest (r : Reg) (s : String) : Bool :=
  searchAll r s.data

/-- `pattern.test(s)` for an `i`-flagged pattern: the subject is
case-folded and the pattern is written in lower case (all classes used
are closed under case). -/
def rtestCI (r : Reg) (s : String) : Bool :=
  searchAll r (s.data.map lowerChar)

/-- Right-nested sequencing of a pattern list. -/
def seqs (rs : List Reg) : Reg :=
  rs.foldr Reg.seq Reg.eps

/-- Alternation of a pattern list (empty list matches nothing). -/
def altList : List Reg → Reg
  | [] => Reg.cls fun _ => false
  | [r] => r
  | r :: rs => Reg.alt r (altList rs)

/-- Shorthand for a literal pattern. -/
def lc (s : String) : Reg :=
  Reg.lit s.data

/-- `\s*` -/
def sstar : Reg := Reg.star jsSpace

/-- `\s+` -/
def splus : Reg := Reg.plus jsSpace

/-- `[\w.]+` -/
def wdplus : Reg := Reg.plus isWordDot

/-- CONDITION_PATTERNS[0] (extension.ts:22):
`if\s*\(\s*[\w.]+\s*==\s*(null|NULL|nullptr|nil|0)\s*\)` with `i` flag
(alternation written case-folded, so `NULL` coincides with `null`). -/
def condP1 : Reg :=
  seqs [lc "if", sstar, lc "(", sstar, wdplus, sstar, lc "==", sstar,
    altList [lc "null", lc "null", lc "nullptr", lc "nil", lc "0"], sstar, lc ")"]

/-- CONDITION_PATTERNS[1] (extension.ts:23):
`if\s*\(\s*[\w.]+\s*===\s*(null|NULL|undefined|nil|0)\s*\)` with `i` flag. -/
def condP2 : Reg :=
  seqs [lc "if", sstar, lc "(", sstar, wdplus, sstar, lc "===", sstar,
    altList [lc "null", lc "null", lc "undefined", lc "nil", lc "0"], sstar, lc ")"]

/-- CONDITION_PATTERNS[2] (extension.ts:24):
`if\s*\(\s*[\w.]+\s*!=\s*[^=]\s*\)` with `i` flag. -/
def condP3 : Reg :=
  seqs [lc "if", sstar, lc "(", sstar, wdplus, sstar, lc "!=", sstar,
    Reg.cls (fun c => !(c = '=')), sstar, lc ")"]

/-- CONDITION_PATTERNS[3] (extension.ts:25):
`if\s*\(\s*[\w.]+\s*<=?\s*\d+\s*\)` with `i` flag. -/
def condP4 : Reg :=
  seqs [lc "if", sstar, lc "(", sstar, wdplus, sstar, lc "<", Reg.opt (lc "="),
    sstar, Reg.plus isDigitChar, sstar, lc ")"]

/-- CONDITION_PATTERNS[4] (extension.ts:26):
`if\s*\(\s*[\w.]+(\.isEmpty\(\)|\.length\s*==\s*0)\s*\)` with `i` flag. -/
def condP5 : Reg :=
  seqs [lc "if", sstar, lc "(", sstar, wdplus,
    altList [lc ".isempty()", seqs [lc ".length", sstar, lc "==", sstar, lc "0"]],
    sstar, lc ")"]

/-- `isConditionStatement` (extension.ts:182-189): any CONDITION_PATTERNS
entry tests true on the line. -/
def isConditionStatement (line : String) : Bool :=
  [condP1, condP2, condP3, condP4, condP5].any fun r => rtestCI r line

/-- ERROR_PATTERNS.return[0] (extension.ts:8):
`return\s+(-1|false|null|NULL|nullptr|undefined|nil)` with `i` flag. -/
def retP1 : Reg :=
  seqs [lc "return", splus,
    altList [lc "-1", lc "false", lc "null", lc "null", lc "nullptr",
      lc "undefined", lc "nil"]]

/-- ERROR_PATTERNS.return[1] (extension.ts:9): `return\s+(error|err|failure)`
with `i` flag. -/
def retP2 : Reg :=
  seqs [lc "return", splus, altList [lc "error", lc "err", lc "failure"]]

/-- ERROR_PATTERNS.return[2] (extension.ts:10):
`return\s+[\w.]+\s*\.\s*(error|failure|err)` with `i` flag. -/
def retP3 : Reg :=
  seqs [lc "return", splus, wdplus, sstar, lc ".", sstar,
    altList [lc "error", lc "failure", lc "err"]]

/-- ERROR_PATTERNS.throw[0] (extension.ts:13): `throw\s+new\s+[\w.]+`
(no flags). -/
def thrP1 : Reg :=
  seqs [lc "throw", splus, lc "new", splus, wdplus]

/-- ERROR_PATTERNS.throw[1] (extension.ts:14): `throw\s+[\w.]+` (no flags). -/
def thrP2 : Reg :=
  seqs [lc "throw", splus, wdplus]

/-- ERROR_PATTERNS.goto[0] (extension.ts:17): `goto\s+[\w_]+` (no flags). -/
def gotoP1 : Reg :=
  seqs [lc "goto", splus, Reg.plus (fun c => isWordChar c || c = '_')]

/-- LOG_PATTERNS[0] (extension.ts:30):
`\w*\(\s*"(.*(error|failed|failure|err|invalid).*)"` (no flags, hence
case-sensitive). -/
def logP1 : Reg :=
  seqs [Reg.star isWordChar, lc "(", sstar, lc "\"", Reg.star isDotChar,
    altList [lc "error", lc "failed", lc "failure", lc "err", lc "invalid"],
    Reg.star isDotChar, lc "\""]

/-- ERROR_KEYWORDS (extension.ts:4). -/
def ERROR_KEYWORDS : List String :=
  ["return", "goto", "throw", "break", "continue"]

/-- ERROR_PATTERNS lookup (extension.ts:6-19): `break` and `continue` have
no entry, so `ERROR_PATTERNS[keyword]` is falsy and no pattern applies. -/
def errorPatternsFor (kw : String) : List (String → Bool) :=
  if kw = "return" then [rtestCI retP1, rtestCI retP2, rtestCI retP3]
  else if kw = "throw" then [rtest thrP1, rtest thrP2]
  else if kw = "goto" then [rtest gotoP1]
  else []

/-- Keyword step of the content scan (extension.ts:159-169): the trimmed
line starts with a keyword and one of that keyword's patterns matches. -/
def errorKeywordHit (line : String) : Bool :=
  ERROR_KEYWORDS.any fun kw =>
    startsWithS line kw && (errorPatternsFor kw).any fun t => t line

/-- Log step of the content scan (extension.ts:172-176). -/
def logHit (line : String) : Bool :=
  rtest logP1 line

/-- One content-scan line triggers acceptance (extension.ts:158-176):
keyword patterns, else log patterns. -/
def lineMatchesError (line : String) : Bool :=
  errorKeywordHit line || logHit line

/-- Model of `new RegExp("\w*:$")` (extension.ts:137).  Inside the
template literal the escape `\w` denotes the character `w`, so the regex
is `w*:$`, and since `w*` may be empty a test succeeds exactly when the
subject ends with `:`. -/
def labelTest (s : String) : Bool :=
  match s.data.getLast? with
  | some c => c = ':'
  | none => false

/-- CodeBlock (extension.ts:91-97). -/
structure CodeBlock where
  startLine : Nat
  startColumn : Nat
  endLine : Nat
  endColumn : Nat
  indentLevel : Nat
deriving DecidableEq

/-- vscode.FoldingRange as constructed at extension.ts:84; `start` is an
`Int` because `block.startLine - 1` may be `-1`. -/
structure FoldingRange where
  start : Int
  stop : Int
deriving DecidableEq

/-- JS array read `lines[i]` for a possibly negative index, with `none`
standing for `undefined` (on which a method call throws). -/
def jsAt (lines : List String) (i : Int) : Option String :=
  if i < 0 then none else lines[i.toNat]?

/-- Skip test of the segmenter loop (extension.ts:106): trimmed line starts
with `//`, is empty, or starts with `#`. -/
def skipLine (line : String) : Bool :=
  startsWithS (trimS line) "//" || (trimS line).data.isEmpty
    || startsWithS (trimS line) "#"

/-- State of the segmenter loop (extension.ts:100-103): emitted blocks, the
bracket stack of pending (line, column) starts with the newest first, and
`currentIndentLevel`. -/
structure SegState where
  blocks : List CodeBlock
  stack : List (Nat × Nat)
  cur : Nat

/-- One iteration of the segmenter loop (extension.ts:104-127) on line
index `i`; `prev` is `lines[i - 1]`, read only in the emit branch (where
`i ≥ 1` always holds, since a pop needs `currentIndentLevel > 0`). -/
def segStep (i : Nat) (prev line : String) (st : SegState) : SegState :=
  if skipLine line then st
  else
    let lvl := getIndentLevel line
    if lvl > st.cur then
      { st with stack := (i, 0) :: st.stack, cur := lvl }
    else if lvl < st.cur then
      match st.stack with
      | [] => { st with cur := lvl }
      | (sl, sc) :: rest =>
          { blocks := st.blocks ++ [⟨sl, sc, i - 1, prev.data.length, st.cur⟩],
            stack := rest, cur := lvl }
    else st

/-- The segmenter loop over the remaining lines, carrying the index of the
head line and the previous raw line. -/
def segGo : Nat → String → List String → SegState → SegState
  | _, _, [], st => st
  | i, prev, l :: ls, st => segGo (i + 1) l ls (segStep i prev l st)

/-- `analyzeCodeBlocks` (extension.ts:99-129). -/
def analyzeCodeBlocks (lines : List String) : List CodeBlock :=
  (segGo 0 "" lines ⟨[], [], 0⟩).blocks

/-- Content scan of `isErrorHandlingBlock` (extension.ts:148-177) over the
given line indices: skip `//` and blank lines, skip lines indented deeper
than the block, accept on the first pattern hit.  An out-of-range read
(`undefined.trim()`) is a thrown exception, i.e. `none`. -/
def scanList (lines : List String) (lvl : Nat) : List Nat → Option Bool
  | [] => some false
  | i :: rest =>
    match lines[i]? with
    | none => none
    | some raw =>
      if startsWithS (trimS raw) "//" || (trimS raw).data.isEmpty then
        scanList lines lvl rest
      else if getIndentLevel raw > lvl then
        scanList lines lvl rest
      else if lineMatchesError (trimS raw) then
        some true
      else
        scanList lines lvl rest

/-- `isErrorHandlingBlock` (extension.ts:136-180).  The very first action
(line 138) reads `lines[block.startLine - 1]` and trims it, so a block with
`startLine = 0` (or a start past the array) throws — `none`. -/
def isErrorHandlingBlock (b : CodeBlock) (lines : List String) : Option Bool :=
  (jsAt lines ((b.startLine : Int) - 1)).bind fun prevRaw =>
    if b.indentLevel ≤ 4 ∧ labelTest (trimS prevRaw) = false then
      some false
    else if 0 < b.startLine ∧ isConditionStatement (trimS prevRaw) = true then
      some true
    else
      scanList lines b.indentLevel
        (List.range' b.startLine (b.endLine + 1 - b.startLine))

/-- Range emission of `findErrorBranches` (extension.ts:81-86) over the
segmented blocks in order; a classification throw aborts the whole call. -/
def collectRanges (lines : List String) : List CodeBlock → Option (List FoldingRange)
  | [] => some []
  | b :: bs =>
    (isErrorHandlingBlock b lines).bind fun ok =>
      (collectRanges lines bs).bind fun rest =>
        if ok then some (⟨(b.startLine : Int) - 1, (b.endLine : Int)⟩ :: rest)
        else some rest

/-- `findErrorBranches` (extension.ts:76-89). -/
def findErrorBranches (lines : List String) : Option (List FoldingRange) :=
  collectRanges lines (analyzeCodeBlocks lines)

/-!
Spec-side segmenter (written from the wording of spec §4.1 and claim C5):
state is `(currentIndentLevel, stack of start indices, emitted triples)`,
a triple being `(startLine, endLine, indentLevel)`.
-/

/-- One spec-side segmentation step, following the spec's words: skip
blank/comment lines; a level increase pushes the line index once; a level
decrease pops the newest marker when the stack is non-empty and emits
`(popped start, i - 1, level being closed)`, then adopts the new level;
an equal level does nothing. -/
def specStep (i : Nat) (line : String) :
    Nat × List Nat × List (Nat × Nat × Nat) → Nat × List Nat × List (Nat × Nat × Nat)
  | (cur, stk, out) =>
    if skipLine line then (cur, stk, out)
    else
      let lvl := getIndentLevel line
      if lvl > cur then (lvl, i :: stk, out)
      else if lvl < cur then
        match stk with
        | [] => (lvl, [], out)
        | s :: rest => (lvl, rest, out ++ [(s, i - 1, cur)])
      else (cur, stk, out)

/-- Spec-side segmentation loop. -/
def specGo : Nat → List String → Nat × List Nat × List (Nat × Nat × Nat) →
    Nat × List Nat × List (Nat × Nat × Nat)
  | _, [], s => s
  | i, l :: ls, s => specGo (i + 1) ls (specStep i l s)

/-- `segment` as the spec describes it, producing
`(startLine, endLine, indentLevel)` triples. -/
def segmentSpec (lines : List String) : List (Nat × Nat × Nat) :=
  (specGo 0 lines (0, [], [])).2.2

/-- Projection of the implementation's segmenter state onto the spec-side
state (columns dropped). -/
def projSt (st : SegState) : Nat × List Nat × List (Nat × Nat × Nat) :=
  (st.cur, st.stack.map Prod.fst, st.blocks.map fun b => (b.startLine, b.endLine, b.indentLevel))

theorem specStep_proj (i : Nat) (prev line : String) (st : SegState) :
    projSt (segStep i prev line st) = specStep i line (projSt st) := by
  obtain ⟨blks, stk, cur⟩ := st
  by_cases hskip : skipLine line
  · simp [segStep, specStep, hskip, projSt]
  · by_cases h1 : getIndentLevel line > cur
    · simp [segStep, specStep, hskip, h1, projSt]
    · by_cases h2 : getIndentLevel line < cur
      · cases stk with
        | nil => simp [segStep, specStep, hskip, h1, h2, projSt]
        | cons p rest =>
          obtain ⟨sl, sc⟩ := p
          simp [segStep, specStep, hskip, h1, h2, projSt]
      · simp [segStep, specStep, hskip, h1, h2, projSt]

theorem specGo_proj : ∀ (ls : List String) (i : Nat) (prev : String) (st : SegState),
    projSt (segGo i prev ls st) = specGo i ls (projSt st)
  | [], _, _, _ => rfl
  | l :: ls, i, prev, st => by
    have h := specGo_proj ls (i + 1) l (segStep i prev l st)
    simpa [segGo, specGo, specStep_proj] using h

/-- C5: the segmenter processes non-skipped lines in order with a running
current indent level and a stack: an indentation increase performs exactly
one push of the current line index, an indentation decrease pops the most
recent marker when the stack is non-empty and emits a block from the popped
start index to line `i - 1` whose `indentLevel` is the level being closed,
an equal level emits nothing, and blank lines and lines whose trimmed
content starts with `//` or `#` are skipped: `analyzeCodeBlocks` coincides
with the step-by-step spec-side segmenter on every input. -/
theorem c5_segmenter_matches_spec (lines : List String) :
    (analyzeCodeBlocks lines).map (fun b => (b.startLine, b.endLine, b.indentLevel)) =
      segmentSpec lines := by
  have h := specGo_proj lines 0 "" ⟨[], [], 0⟩
  have h2 : (projSt (segGo 0 "" lines ⟨[], [], 0⟩)).2.2 = segmentSpec lines := by
    rw [h]; rfl
  exact h2

/-!
Well-formedness and nesting discipline of the segmenter's output (C9).
-/

/-- Two blocks are properly related: one contains the other, or their line
ranges are disjoint. -/
def nestedOrDisjoint (a b : CodeBlock) : Prop :=
  (a.startLine ≤ b.startLine ∧ b.endLine ≤ a.endLine) ∨
  (b.startLine ≤ a.startLine ∧ a.endLine ≤ b.endLine) ∨
  a.endLine < b.startLine ∨ b.endLine < a.startLine

/-- Loop invariant of the segmenter at line index `i`: stack entries are
past line indices, newest first and strictly decreasing; emitted blocks are
well-formed and closed strictly before `i`; every stack entry lies at or
before the start of every emitted block, or strictly after its end; and
emitted blocks are pairwise nested-or-disjoint. -/
structure SegInv (i : Nat) (st : SegState) : Prop where
  stackLt : ∀ p ∈ st.stack, p.1 < i
  stackSorted : st.stack.Pairwise fun p q => q.1 < p.1
  blocksWf : ∀ b ∈ st.blocks, b.startLine ≤ b.endLine ∧ b.endLine < i
  sep : ∀ b ∈ st.blocks, ∀ p ∈ st.stack, p.1 ≤ b.startLine ∨ b.endLine < p.1
  pair : ∀ a ∈ st.blocks, ∀ b ∈ st.blocks, nestedOrDisjoint a b

theorem SegInv.mono {i : Nat} {st : SegState} (h : SegInv i st) : SegInv (i + 1) st where
  stackLt := fun p hp => Nat.lt_succ_of_lt (h.stackLt p hp)
  stackSorted := h.stackSorted
  blocksWf := fun b hb => ⟨(h.blocksWf b hb).1, Nat.lt_succ_of_lt (h.blocksWf b hb).2⟩
  sep := h.sep
  pair := h.pair

theorem segInv_step (i : Nat) (prev line : String) (st : SegState) (h : SegInv i st) :
    SegInv (i + 1) (segStep i prev line st) := by
  obtain ⟨blks, stk, cur⟩ := st
  simp only [segStep]
  by_cases hskip : skipLine line
  · rw [if_pos hskip]
    exact h.mono
  rw [if_neg hskip]
  by_cases h1 : getIndentLevel line > cur
  · rw [if_pos h1]
    refine ⟨?_, ?_, ?_, ?_, ?_⟩
    · intro p hp
      rcases List.mem_cons.mp hp with hp | hp
      · subst hp
        exact Nat.lt_succ_self i
      · exact Nat.lt_succ_of_lt (h.stackLt p hp)
    · exact List.Pairwise.cons (fun q hq => h.stackLt q hq) h.stackSorted
    · exact fun b hb => ⟨(h.blocksWf b hb).1, Nat.lt_succ_of_lt (h.blocksWf b hb).2⟩
    · intro b hb p hp
      rcases List.mem_cons.mp hp with hp | hp
      · subst hp
        exact Or.inr (h.blocksWf b hb).2
      · exact h.sep b hb p hp
    · exact h.pair
  rw [if_neg h1]
  by_cases h2 : getIndentLevel line < cur
  · rw [if_pos h2]
    cases stk with
    | nil =>
      refine ⟨?_, ?_, ?_, ?_, h.pair⟩
      · intro p hp
        cases hp
      · exact List.Pairwise.nil
      · exact fun b hb => ⟨(h.blocksWf b hb).1, Nat.lt_succ_of_lt (h.blocksWf b hb).2⟩
      · intro b hb p hp
        cases hp
    | cons top rest =>
      obtain ⟨sl, sc⟩ := top
      have hsl : sl < i := h.stackLt (sl, sc) (List.mem_cons_self _ _)
      have hrest : ∀ p ∈ rest, p.1 < sl :=
        fun p hp => (List.pairwise_cons.mp h.stackSorted).1 p hp
      have hsep : ∀ b ∈ blks, sl ≤ b.startLine ∨ b.endLine < sl :=
        fun b hb => h.sep b hb (sl, sc) (List.mem_cons_self _ _)
      refine ⟨?_, ?_, ?_, ?_, ?_⟩
      · intro p hp
        exact Nat.lt_succ_of_lt (h.stackLt p (List.mem_cons_of_mem _ hp))
      · exact (List.pairwise_cons.mp h.stackSorted).2
      · intro b hb
        rcases List.mem_append.mp hb with hb | hb
        · exact ⟨(h.blocksWf b hb).1, Nat.lt_succ_of_lt (h.blocksWf b hb).2⟩
        · rcases List.mem_singleton.mp hb with rfl
          exact ⟨Nat.le_sub_one_of_lt hsl, Nat.sub_lt_succ i 1⟩
      · intro b hb p hp
        rcases List.mem_append.mp hb with hb | hb
        · exact h.sep b hb p (List.mem_cons_of_mem _ hp)
        · rcases List.mem_singleton.mp hb with rfl
          exact Or.inl (Nat.le_of_lt (hrest p hp))
      · intro a ha b hb
        rcases List.mem_append.mp ha with ha | ha <;> rcases List.mem_append.mp hb with hb | hb
        · exact h.pair a ha b hb
        · rcases List.mem_singleton.mp hb with rfl
          rcases hsep a ha with hc | hc
          · exact Or.inr (Or.inl ⟨hc, Nat.le_sub_one_of_lt (h.blocksWf a ha).2⟩)
          · exact Or.inr (Or.inr (Or.inl hc))
        · rcases List.mem_singleton.mp ha with rfl
          rcases hsep b hb with hc | hc
          · exact Or.inl ⟨hc, Nat.le_sub_one_of_lt (h.blocksWf b hb).2⟩
          · exact Or.inr (Or.inr (Or.inr hc))
        · rcases List.mem_singleton.mp ha with rfl
          rcases List.mem_singleton.mp hb with rfl
          exact Or.inl ⟨Nat.le_refl _, Nat.le_refl _⟩
  · rw [if_neg h2]
    exact h.mono

theorem segInv_go : ∀ (ls : List String) (i : Nat) (prev : String) (st : SegState),
    SegInv i st → SegInv (i + ls.length) (segGo i prev ls st)
  | [], i, _, st, h => by simpa using h
  | l :: ls, i, prev, st, h => by
    have h2 := segInv_go ls (i + 1) l (segStep i prev l st) (segInv_step i prev l st h)
    have e : i + 1 + ls.length = i + (l :: ls).length := by
      simp [List.length_cons]; omega
    rw [segGo]
    exact e ▸ h2

/-- C9: every block emitted by the segmenter satisfies
`startLine ≤ endLine`, and any two emitted blocks are either disjoint or
one contains the other (the stack discipline's proper nesting). -/
theorem c9_blocks_wf_nested_or_disjoint (lines : List String) (b1 b2 : CodeBlock)
    (h1 : b1 ∈ analyzeCodeBlocks lines) (h2 : b2 ∈ analyzeCodeBlocks lines) :
    b1.startLine ≤ b1.endLine ∧ nestedOrDisjoint b1 b2 := by
  have hinv : SegInv 0 ⟨[], [], 0⟩ :=
    ⟨fun p hp => (List.not_mem_nil p hp).elim, List.Pairwise.nil,
     fun b hb => (List.not_mem_nil b hb).elim,
     fun b hb => (List.not_mem_nil b hb).elim,
     fun a ha => (List.not_mem_nil a ha).elim⟩
  have h := segInv_go lines 0 "" ⟨[], [], 0⟩ hinv
  exact ⟨(h.blocksWf b1 h1).1, h.pair b1 h1 b2 h2⟩

/-!
Concrete inputs used by the claims.  Literal braces in the source lines are
written with their character codes.
-/

/-- The spec's end-to-end example (spec §8, claim C1). -/
def sixLines : List String :=
  ["function f(x) \x7b", "  if (x == null) \x7b", "    return false;", "  \x7d",
   "  return true;", "\x7d"]

/-- The spec's guard-acceptance example (spec §8, claim C2). -/
def c2lines : List String :=
  ["if (ptr == NULL) \x7b", "    return -1;", "\x7d"]

/-- A first line indented by two spaces segments into a block with
`startLine = 0` (claim C3). -/
def c3lines : List String :=
  ["  return error;", "x"]

/-- Depth-gated block preceded by a label line (claim C4). -/
def lines4a : List String :=
  ["err:", "  throw new Error(\"x\")", "x"]

/-- Depth-gated block preceded by a non-label line (claim C4). -/
def lines4b : List String :=
  ["foo()", "  throw new Error(\"x\")", "x"]

/-- Depth-gated block preceded by a line that ends with `:` but not with an
identifier followed by `:` (claim C4). -/
def lines4c : List String :=
  ["x ? y :", "  throw new Error(\"x\")", "x"]

/-- Log line with a lower-case error word (claim C6). -/
def c6aLines : List String :=
  ["foo()", "      console.log(\"failed to connect\")", "x"]

/-- Log line with an upper-case error word (claim C6). -/
def c6bLines : List String :=
  ["foo()", "      console.log(\"FAILED to connect\")", "x"]

/-- A first line indented by six spaces segments into a block with
`startLine = 0` that would be content-accepted (claim C10). -/
def c10lines : List String :=
  ["      return error;", "x"]

/-!
Reduction lemmas for the classifier, used by the universally quantified
claim theorems.
-/

/-- When the preceding-line read succeeds, the depth gate fires and no
label bypass applies, the classifier rejects without looking further. -/
theorem classify_gate_rejects (b : CodeBlock) (lines : List String) (s : String)
    (hprev : jsAt lines ((b.startLine : Int) - 1) = some s)
    (hlvl : b.indentLevel ≤ 4) (hlab : labelTest (trimS s) = false) :
    isErrorHandlingBlock b lines = some false := by
  simp only [isErrorHandlingBlock, hprev, Option.some_bind]
  rw [if_pos ⟨hlvl, hlab⟩]

/-- When the preceding-line read succeeds, the gate does not fire and the
preceding line is a condition statement, the classifier accepts without
looking at the block's contents. -/
theorem classify_guard_accepts (b : CodeBlock) (lines : List String) (s : String)
    (hprev : jsAt lines ((b.startLine : Int) - 1) = some s)
    (hgate : ¬(b.indentLevel ≤ 4 ∧ labelTest (trimS s) = false))
    (hstart : 0 < b.startLine)
    (hguard : isConditionStatement (trimS s) = true) :
    isErrorHandlingBlock b lines = some true := by
  simp only [isErrorHandlingBlock, hprev, Option.some_bind]
  rw [if_neg hgate, if_pos ⟨hstart, hguard⟩]

/-- When the preceding-line read succeeds, the gate does not fire and the
preceding line is not a condition statement, the classifier is exactly the
content scan. -/
theorem classify_content_scan (b : CodeBlock) (lines : List String) (s : String)
    (hprev : jsAt lines ((b.startLine : Int) - 1) = some s)
    (hgate : ¬(b.indentLevel ≤ 4 ∧ labelTest (trimS s) = false))
    (hguard : isConditionStatement (trimS s) = false) :
    isErrorHandlingBlock b lines =
      scanList lines b.indentLevel
        (List.range' b.startLine (b.endLine + 1 - b.startLine)) := by
  simp only [isErrorHandlingBlock, hprev, Option.some_bind]
  rw [if_neg hgate, if_neg fun hcontra => by
    rw [hguard] at hcontra
    exact Bool.false_ne_true hcontra.2]

/-- The emitted ranges are exactly the `(startLine - 1, endLine)` pairs of
the accepted blocks, in both directions. -/
theorem collectRanges_ranges (lines : List String) :
    ∀ (bs : List CodeBlock) (rs : List FoldingRange), collectRanges lines bs = some rs →
      (∀ b ∈ bs, isErrorHandlingBlock b lines = some true →
        (⟨(b.startLine : Int) - 1, (b.endLine : Int)⟩ : FoldingRange) ∈ rs) ∧
      (∀ r ∈ rs, ∃ b, b ∈ bs ∧ isErrorHandlingBlock b lines = some true ∧
        r.start = (b.startLine : Int) - 1 ∧ r.stop = (b.endLine : Int))
  | [], rs, h => by
    simp only [collectRanges, Option.some.injEq] at h
    subst h
    exact ⟨fun b hb => (List.not_mem_nil b hb).elim,
           fun r hr => (List.not_mem_nil r hr).elim⟩
  | b :: bs, rs, h => by
    rw [collectRanges] at h
    cases hc : isErrorHandlingBlock b lines with
    | none =>
      rw [hc] at h
      simp at h
    | some ok =>
      rw [hc, Option.some_bind] at h
      cases hrest : collectRanges lines bs with
      | none =>
        rw [hrest] at h
        simp at h
      | some rest =>
        rw [hrest, Option.some_bind] at h
        have ih := collectRanges_ranges lines bs rest hrest
        cases ok with
        | false =>
          have hrs : rs = rest := by simpa using h.symm
          subst hrs
          refine ⟨?_, ?_⟩
          · intro b2 hb2 hacc
            rcases List.mem_cons.mp hb2 with rfl | hb2
            · rw [hacc] at hc
              simp at hc
            · exact ih.1 b2 hb2 hacc
          · intro r hr
            obtain ⟨b3, hb3, hx⟩ := ih.2 r hr
            exact ⟨b3, List.mem_cons_of_mem _ hb3, hx⟩
        | true =>
          have hrs : rs = ⟨(b.startLine : Int) - 1, (b.endLine : Int)⟩ :: rest := by
            simpa using h.symm
          subst hrs
          refine ⟨?_, ?_⟩
          · intro b2 hb2 hacc
            rcases List.mem_cons.mp hb2 with rfl | hb2
            · exact List.mem_cons_self _ _
            · exact List.mem_cons_of_mem _ (ih.1 b2 hb2 hacc)
          · intro r hr
            rcases List.mem_cons.mp hr with rfl | hr
            · exact ⟨b, List.mem_cons_self _ _, hc, rfl, rfl⟩
            · obtain ⟨b3, hb3, hx⟩ := ih.2 r hr
              exact ⟨b3, List.mem_cons_of_mem _ hb3, hx⟩

/-- On input whose every line is skipped or at indent level 0, the
segmenter state never changes. -/
theorem segGo_flat : ∀ (ls : List String) (i : Nat) (prev : String),
    (∀ l ∈ ls, skipLine l = true ∨ getIndentLevel l = 0) →
    segGo i prev ls ⟨[], [], 0⟩ = ⟨[], [], 0⟩
  | [], _, _, _ => rfl
  | l :: ls, i, prev, h => by
    have hstep : segStep i prev l ⟨[], [], 0⟩ = ⟨[], [], 0⟩ := by
      rcases h l (List.mem_cons_self _ _) with hs | h0
      · simp [segStep, hs]
      · by_cases hs : skipLine l
        · simp [segStep, hs]
        · simp [segStep, hs, h0]
    rw [segGo, hstep]
    exact segGo_flat ls (i + 1) l fun l2 hl2 => h l2 (List.mem_cons_of_mem _ hl2)

/-!
Claim theorems.
-/

set_option maxRecDepth 4000

/-- C1 counterexample: on the spec's six-line example the full pipeline
returns zero ranges, not one accepted range covering line 2. -/
theorem c1_counterexample : findErrorBranches sixLines = some [] := by decide

/-- C1 (amended): on the six-line example the segmenter finds the blocks
(2,2, indent 4) and (1,4, indent 2); the depth gate rejects both (indent
levels are at most 4 and neither preceding line ends with a colon), so
the pipeline returns zero ranges; in particular no returned range covers
the `return false;` line and none covers the `return true;` line. -/
theorem c1_depth_gate_rejects_example :
    ((analyzeCodeBlocks sixLines).map fun b =>
      ((b.startLine, b.endLine, b.indentLevel), isErrorHandlingBlock b sixLines)) =
      [((2, 2, 4), some false), ((1, 4, 2), some false)] ∧
    findErrorBranches sixLines = some [] := by
  exact ⟨by decide, by decide⟩

/-- C2 counterexample: on `["if (ptr == NULL) {", "    return -1;", "}"]`
the segmented block spanning lines 1-1 (indent level 4) is classified as
NOT error-handling: the depth gate rejects it before the guard rule runs. -/
theorem c2_counterexample :
    ((analyzeCodeBlocks c2lines).map fun b =>
      ((b.startLine, b.endLine, b.indentLevel), isErrorHandlingBlock b c2lines)) =
      [((1, 1, 4), some false)] := by
  decide

/-- C2 (amended): the block of the guard example is rejected by the depth
gate (indent level 4 is at most 4 and the preceding line does not end with
a colon); for a deeper block (indent level 8) below the same guard line the
classifier accepts via the preceding-guard rule alone, for every possible
block content and trailing line, i.e. without inspecting the contents. -/
theorem c2_guard_accepts_when_deep :
    isErrorHandlingBlock ⟨1, 0, 1, 14, 4⟩ c2lines = some false ∧
    ∀ (mid last : String) (c : Nat),
      isErrorHandlingBlock ⟨1, 0, 1, c, 8⟩ ["if (ptr == NULL) \x7b", mid, last] =
        some true := by
  refine ⟨by decide, fun mid last c => ?_⟩
  refine classify_guard_accepts _ _ "if (ptr == NULL) \x7b" rfl ?_ Nat.one_pos (by decide)
  intro hcontra
  exact absurd hcontra.1 (by decide : ¬((8 : Nat) ≤ 4))

/-- C3: the classifier's first action reads `lines[startLine - 1]` and
trims it with no `startLine > 0` guard, so the block (0,0, indent 2)
segmented from `["  return error;", "x"]` makes classification throw
(modelled `none`) instead of proceeding to the content scan. -/
theorem c3_classifier_throws_on_first_line_block :
    ((analyzeCodeBlocks c3lines).map fun b =>
      ((b.startLine, b.endLine, b.indentLevel), isErrorHandlingBlock b c3lines)) =
      [((0, 0, 2), none)] := by
  decide

/-- C4 counterexample: a block at indent level 2 whose content is
`throw new Error("x")` is accepted when the preceding line is `x ? y :`,
which ends with a colon but not with an identifier followed by a colon. -/
theorem c4_counterexample :
    ((analyzeCodeBlocks lines4c).map fun b =>
      ((b.startLine, b.endLine, b.indentLevel), isErrorHandlingBlock b lines4c)) =
      [((1, 1, 2), some true)] := by
  decide

/-- C4 (amended): every block with indent level at most 4 is rejected
unless the line immediately preceding it ends with a colon (the gate's
regex `w*:$` only tests for a trailing colon, requiring no identifier);
a block at indent level 2 with content `throw new Error("x")` is accepted
when preceded by `err:` and rejected when preceded by `foo()`. -/
theorem c4_trailing_colon_gate :
    (∀ (b : CodeBlock) (lines : List String) (s : String),
      jsAt lines ((b.startLine : Int) - 1) = some s → b.indentLevel ≤ 4 →
      labelTest (trimS s) = false → isErrorHandlingBlock b lines = some false) ∧
    isErrorHandlingBlock ⟨1, 0, 1, 22, 2⟩ lines4a = some true ∧
    isErrorHandlingBlock ⟨1, 0, 1, 22, 2⟩ lines4b = some false :=
  ⟨classify_gate_rejects, by decide, by decide⟩

/-- C4 witness: the gate rule applied to the outer block of the six-line
example, whose preceding line `function f(x) {` does not end with a colon. -/
theorem c4_trailing_colon_gate_witness :
    jsAt sixLines (((⟨1, 0, 4, 14, 2⟩ : CodeBlock).startLine : Int) - 1) =
      some "function f(x) \x7b" ∧
    (⟨1, 0, 4, 14, 2⟩ : CodeBlock).indentLevel ≤ 4 ∧
    labelTest (trimS "function f(x) \x7b") = false ∧
    isErrorHandlingBlock ⟨1, 0, 4, 14, 2⟩ sixLines = some false :=
  ⟨by decide, by decide, by decide,
   c4_trailing_colon_gate.1 ⟨1, 0, 4, 14, 2⟩ sixLines "function f(x) \x7b"
     (by decide) (by decide) (by decide)⟩

/-- C6 counterexample: with the upper-case word `FAILED` the log line is
NOT accepted — the log pattern has no `i` flag and is case-sensitive. -/
theorem c6_counterexample :
    ((analyzeCodeBlocks c6bLines).map fun b => isErrorHandlingBlock b c6bLines) =
      [some false] := by
  decide

/-- C6 (amended): a gate-passing, unguarded block containing
`console.log("failed to connect")` is accepted although no control-flow
keyword matches (the hit comes from the log pattern alone); the match of
the error word is case-sensitive: the same line with `FAILED` is rejected. -/
theorem c6_log_pattern_case_sensitive :
    ((analyzeCodeBlocks c6aLines).map fun b => isErrorHandlingBlock b c6aLines) =
      [some true] ∧
    errorKeywordHit "console.log(\"failed to connect\")" = false ∧
    logHit "console.log(\"failed to connect\")" = true ∧
    logHit "console.log(\"FAILED to connect\")" = false := by
  exact ⟨by decide, by decide, by decide, by decide⟩

/-- C7: for a block at indent level 6 (so the depth gate passes) whose
preceding line is not a condition statement, a sole content line
`return error;` makes the classifier accept and a sole content line
`return 0;` makes it reject, whatever the surrounding lines are. -/
theorem c7_return_patterns (prev last : String) (c : Nat)
    (hguard : isConditionStatement (trimS prev) = false) :
    isErrorHandlingBlock ⟨1, 0, 1, c, 6⟩ [prev, "      return error;", last] =
      some true ∧
    isErrorHandlingBlock ⟨1, 0, 1, c, 6⟩ [prev, "      return 0;", last] =
      some false := by
  constructor
  · rw [classify_content_scan ⟨1, 0, 1, c, 6⟩ [prev, "      return error;", last]
      prev rfl (fun hcontra => absurd hcontra.1 (by decide : ¬((6 : Nat) ≤ 4))) hguard]
    rfl
  · rw [classify_content_scan ⟨1, 0, 1, c, 6⟩ [prev, "      return 0;", last]
      prev rfl (fun hcontra => absurd hcontra.1 (by decide : ¬((6 : Nat) ≤ 4))) hguard]
    rfl

/-- C7 witness: the two return-line classifications at the concrete
preceding line `foo()`. -/
theorem c7_return_patterns_witness :
    isConditionStatement (trimS "foo()") = false ∧
    (isErrorHandlingBlock ⟨1, 0, 1, 0, 6⟩ ["foo()", "      return error;", "x"] =
        some true ∧
     isErrorHandlingBlock ⟨1, 0, 1, 0, 6⟩ ["foo()", "      return 0;", "x"] =
        some false) :=
  ⟨by decide, c7_return_patterns "foo()" "x" 0 (by decide)⟩

/-- C8 counterexample: the two-line input whose raw indentation only
decreases (4 spaces, then 2) emits one block, not zero: the positive
indent of the first line already counts as an increase from level 0. -/
theorem c8_counterexample : analyzeCodeBlocks ["    a", "  b"] ≠ [] := by decide

/-- C8 (amended): an input whose indentation never rises above the running
level — every line skipped or at indent 0 — produces zero blocks; and a
pop attempted on an empty stack is a silent no-op that emits nothing and
does not fault: on indents 4, 2, 0 only the one block closed by the first
decrease is emitted, the final empty-stack pop emitting nothing. -/
theorem c8_empty_pop_noop :
    (∀ lines : List String,
      (∀ l ∈ lines, skipLine l = true ∨ getIndentLevel l = 0) →
      analyzeCodeBlocks lines = []) ∧
    analyzeCodeBlocks ["    a", "  b", "c"] = [⟨0, 0, 0, 5, 4⟩] := by
  refine ⟨fun lines h => ?_, by decide⟩
  unfold analyzeCodeBlocks
  rw [segGo_flat lines 0 "" h]

/-- C8 witness: the flat-input part applied to a concrete input. -/
theorem c8_empty_pop_noop_witness :
    (∀ l ∈ (["x", "// note", ""] : List String),
      skipLine l = true ∨ getIndentLevel l = 0) ∧
    analyzeCodeBlocks ["x", "// note", ""] = [] :=
  ⟨by decide, c8_empty_pop_noop.1 ["x", "// note", ""] (by decide)⟩

/-- C9 witness: the two blocks of the six-line example are nested. -/
theorem c9_blocks_wf_nested_or_disjoint_witness :
    (⟨2, 0, 2, 17, 4⟩ : CodeBlock) ∈ analyzeCodeBlocks sixLines ∧
    (⟨1, 0, 4, 14, 2⟩ : CodeBlock) ∈ analyzeCodeBlocks sixLines ∧
    ((⟨2, 0, 2, 17, 4⟩ : CodeBlock).startLine ≤ (⟨2, 0, 2, 17, 4⟩ : CodeBlock).endLine ∧
      nestedOrDisjoint ⟨2, 0, 2, 17, 4⟩ ⟨1, 0, 4, 14, 2⟩) :=
  ⟨by decide, by decide,
   c9_blocks_wf_nested_or_disjoint sixLines _ _ (by decide) (by decide)⟩

/-- C10 (amended): whenever `findErrorBranches` returns, each accepted
block contributes the range `(startLine - 1, endLine)` and every returned
range arises this way from an accepted block — every range covers the line
immediately preceding its block; a block with `startLine = 0` never
contributes a `start = -1` range because classifying it throws. -/
theorem c10_range_offsets (lines : List String) (rs : List FoldingRange)
    (h : findErrorBranches lines = some rs) :
    (∀ b ∈ analyzeCodeBlocks lines, isErrorHandlingBlock b lines = some true →
      (⟨(b.startLine : Int) - 1, (b.endLine : Int)⟩ : FoldingRange) ∈ rs) ∧
    (∀ r ∈ rs, ∃ b, b ∈ analyzeCodeBlocks lines ∧
      isErrorHandlingBlock b lines = some true ∧
      r.start = (b.startLine : Int) - 1 ∧ r.stop = (b.endLine : Int)) :=
  collectRanges_ranges lines (analyzeCodeBlocks lines) rs h

/-- C10 counterexample: a segmented block with `startLine = 0` whose
content would be accepted does not yield a range with start `-1`; the
classifier throws on it and the whole call aborts with no ranges. -/
theorem c10_counterexample :
    ((analyzeCodeBlocks c10lines).map fun b =>
      (b.startLine, isErrorHandlingBlock b c10lines)) = [(0, none)] ∧
    findErrorBranches c10lines = none := by
  exact ⟨by decide, by decide⟩

/-- C10 witness: on the labelled-throw example the pipeline returns the
single range (0, 1), which is `(startLine - 1, endLine)` of its block. -/
theorem c10_range_offsets_witness :
    findErrorBranches lines4a = some [⟨0, 1⟩] ∧
    (⟨0, 1⟩ : FoldingRange) ∈ [(⟨0, 1⟩ : FoldingRange)] := by
  refine ⟨by decide, ?_⟩
  have h := (c10_range_offsets lines4a [⟨0, 1⟩] (by decide)).1
    ⟨1, 0, 1, 22, 2⟩ (by decide) (by decide)
  exact h
